import Mathlib

/-!
Verification of the ILM policy analysis engine
(`ilm_policy_parser.py`, `ilm_policy-explain_parser.py`,
`ilm-policy-parser-mike.py`).

The Python sources are shallowly embedded: dictionaries become
association lists (`List (String × _)`), Python floats become `ℚ`,
fallible code returns `Except String _`, and the builtin parsers
`float()` / `int()` are modelled by `pyFloatChars?` / `pyIntChars?`
(covering the plain decimal forms: optional sign, digits, optional
fraction and exponent; the builtins additionally accept surrounding
whitespace, underscores between digits and inf/nan spellings, none of
which any engine call site produces).
-/

set_option maxRecDepth 4000

attribute [local semireducible] Rat.add Rat.mul Rat.inv Rat.sub Rat.ofScientific

namespace Ilm

/-- ASCII lower-casing of one character, as Python `str.lower` acts on
the ASCII range (every string the engine matches against is ASCII). -/
def lowerChar (c : Char) : Char :=
  if 'A' ≤ c ∧ c ≤ 'Z' then Char.ofNat (c.toNat + 32) else c

/-- Python `str.lower` (ASCII fragment). -/
def lowerAscii (s : String) : String :=
  ⟨s.toList.map lowerChar⟩

/-- Contiguous-sublist test on character lists, the meaning of Python
`needle in hay` for strings. -/
def listContains (hay needle : List Char) : Bool :=
  needle.isPrefixOf hay ||
    (match hay with
     | [] => false
     | _ :: t => listContains t needle)

/-- Python `needle in hay` for strings. -/
def strContains (hay needle : String) : Bool :=
  listContains hay.toList needle.toList

/-- Python `s.endswith(c)` for a single-character suffix. -/
def strEndsWithChar (s : String) (c : Char) : Bool :=
  s.toList.getLast? == some c

/-- Python `str.replace` on character lists (non-overlapping,
left-to-right), fuelled by the input length; the engine only replaces
non-empty patterns. -/
def replaceFuel (pat rep : List Char) : ℕ → List Char → List Char
  | 0, s => s
  | _ + 1, [] => []
  | n + 1, c :: t =>
      if pat ≠ [] ∧ pat.isPrefixOf (c :: t) then
        rep ++ replaceFuel pat rep n ((c :: t).drop pat.length)
      else
        c :: replaceFuel pat rep n t

/-- Python `s.replace(pat, rep)`. -/
def pyReplace (s pat rep : String) : String :=
  ⟨replaceFuel pat.toList rep.toList s.toList.length s.toList⟩

/-- Python `s[:n]` for `0 ≤ n`. -/
def strTake (s : String) (n : ℕ) : String :=
  ⟨s.toList.take n⟩

/-- Python `len(s)`. -/
def strLen (s : String) : ℕ :=
  s.toList.length

/-- Value of a digit string, most significant first. -/
def decValue (ds : List Char) : ℕ :=
  ds.foldl (fun a c => 10 * a + (c.toNat - 48)) 0

/-- Strip one optional leading sign, reporting whether it was `-`. -/
def signSplit (cs : List Char) : Bool × List Char :=
  if cs.head? = some '-' then (true, cs.tail)
  else if cs.head? = some '+' then (false, cs.tail)
  else (false, cs)

/-- Mantissa of a Python float literal: digits, optionally a dot with
further digits, at least one digit overall. -/
def mantissaQ? (cs : List Char) : Option ℚ :=
  if (cs.dropWhile Char.isDigit).isEmpty then
    if (cs.takeWhile Char.isDigit).isEmpty then none
    else some (decValue (cs.takeWhile Char.isDigit) : ℚ)
  else if (cs.dropWhile Char.isDigit).head? = some '.' then
    if ((cs.dropWhile Char.isDigit).tail).all Char.isDigit &&
        !((cs.takeWhile Char.isDigit).isEmpty &&
          ((cs.dropWhile Char.isDigit).tail).isEmpty) then
      some ((decValue (cs.takeWhile Char.isDigit) : ℚ) +
        (decValue ((cs.dropWhile Char.isDigit).tail) : ℚ) /
          (10 : ℚ) ^ ((cs.dropWhile Char.isDigit).tail).length)
    else none
  else none

/-- Split at the first `e`/`E`, the exponent marker of a float literal:
the mantissa characters, and the exponent characters when a marker is
present. -/
def splitExpon (cs : List Char) : List Char × Option (List Char) :=
  (cs.takeWhile (fun c => !(c == 'e' || c == 'E')),
   (cs.dropWhile (fun c => !(c == 'e' || c == 'E'))).tail?)

/-- Exponent part of a Python float literal: optional sign then at
least one digit. -/
def exponentZ? (cs : List Char) : Option ℤ :=
  if (signSplit cs).2.isEmpty || !(signSplit cs).2.all Char.isDigit then none
  else some (if (signSplit cs).1 then -(decValue (signSplit cs).2 : ℤ)
    else (decValue (signSplit cs).2 : ℤ))

/-- Python `float(s)` on its plain decimal forms; `none` models the
`ValueError` the builtin raises on any other string. -/
def pyFloatChars? (cs : List Char) : Option ℚ :=
  match mantissaQ? (splitExpon (signSplit cs).2).1 with
  | none => none
  | some mv =>
      match (splitExpon (signSplit cs).2).2 with
      | none => some (if (signSplit cs).1 then -mv else mv)
      | some es =>
          match exponentZ? es with
          | none => none
          | some e => some ((if (signSplit cs).1 then -mv else mv) * (10 : ℚ) ^ e)

/-- Python `int(s)`: optional sign then digits; `none` models the
`ValueError` on any other string. -/
def pyIntChars? (cs : List Char) : Option ℤ :=
  if (signSplit cs).2.isEmpty || !(signSplit cs).2.all Char.isDigit then none
  else some (if (signSplit cs).1 then -(decValue (signSplit cs).2 : ℤ)
    else (decValue (signSplit cs).2 : ℤ))

/-- `parse_age_to_days` of `ilm_policy_parser.py`: age string to
fractional days, every failure mapped to `0` by the `try`/`except`. -/
def parseAgeToDays (s : String) : ℚ :=
  if s = "" || s = "N/A" || s = "0ms" || s = "null" then 0
  else if strEndsWithChar s 'd' then
    (pyFloatChars? s.toList.dropLast).getD 0 * 1
  else if strEndsWithChar s 'h' then
    (pyFloatChars? s.toList.dropLast).getD 0 * (1 / 24)
  else if strEndsWithChar s 'm' then
    (pyFloatChars? s.toList.dropLast).getD 0 * (1 / (24 * 60))
  else if strEndsWithChar s 's' then
    (pyFloatChars? s.toList.dropLast).getD 0 * (1 / (24 * 3600))
  else 0

/-- `parse_age_to_days` of `ilm_policy-explain_parser.py`: no
`try`/`except`, so an unparseable numeric body raises. -/
def parseAgeToDaysV2 (s : String) : Except String ℚ :=
  if s = "" || s = "N/A" then .ok 0
  else if strEndsWithChar s 'd' then
    match pyFloatChars? s.toList.dropLast with
    | some q => .ok q
    | none => .error "ValueError"
  else if strEndsWithChar s 'h' then
    match pyFloatChars? s.toList.dropLast with
    | some q => .ok (q / 24)
    | none => .error "ValueError"
  else if strEndsWithChar s 'm' then
    match pyFloatChars? s.toList.dropLast with
    | some q => .ok (q / (24 * 60))
    | none => .error "ValueError"
  else .ok 0

/-- `parse_min_age_to_days` of `ilm_policy-explain_parser.py`: uses
`int(...)`, no `try`/`except`. -/
def parseMinAgeToDaysV2 (s : String) : Except String ℚ :=
  if s = "" || s = "N/A" || s = "0ms" then .ok 0
  else if strEndsWithChar s 'd' then
    match pyIntChars? s.toList.dropLast with
    | some n => .ok (n : ℚ)
    | none => .error "ValueError"
  else if strEndsWithChar s 'h' then
    match pyIntChars? s.toList.dropLast with
    | some n => .ok ((n : ℚ) / 24)
    | none => .error "ValueError"
  else if strEndsWithChar s 'm' then
    match pyIntChars? s.toList.dropLast with
    | some n => .ok ((n : ℚ) / (24 * 60))
    | none => .error "ValueError"
  else .ok 0

/-- `_should_skip` of `ilm_policy_parser.py`: case-insensitive substring
match of `name` against a pattern list. -/
def shouldSkip (name : String) (patterns : List String) : Bool :=
  patterns.any (fun p => strContains (lowerAscii name) p)

/-- `self.skip_policies` of `ilm_policy_parser.py`. -/
def defaultSkipPolicies : List String :=
  ["metrics", "elastic-agent-ilm", "kibana-event-log-policy"]

/-- `self.skip_indices` of `ilm_policy_parser.py`. -/
def defaultSkipIndices : List String :=
  ["partial-restored", ".internal"]

/-- `should_skip_policy` of `ilm_policy-explain_parser.py`: the fixed
pattern list, plus the rule skipping names that contain `logs` without
containing `logs-`. -/
def shouldSkipPolicyExplain (name : String) : Bool :=
  (["metrics", "elastic-agent-ilm", "kibana-event-log-policy"].any
      (fun p => strContains (lowerAscii name) p)) ||
    (strContains (lowerAscii name) "logs" &&
      !strContains (lowerAscii name) "logs-")

/-- The 18-character generation suffix `-YYYY.MM.DD-NNNNNN` matched by
the regex in `strip_trailing_date`. -/
def dateSuffixOK (cs : List Char) : Bool :=
  match cs with
  | ['-', y1, y2, y3, y4, '.', m1, m2, '.', d1, d2, '-',
     n1, n2, n3, n4, n5, n6] =>
      [y1, y2, y3, y4, m1, m2, d1, d2, n1, n2, n3, n4, n5, n6].all
        Char.isDigit
  | _ => false

/-- `strip_trailing_date` / the inline `re.sub` in `report_ilm_errors`:
drop a trailing `-YYYY.MM.DD-NNNNNN` generation marker if present. -/
def stripTrailingDate (s : String) : String :=
  let cs := s.toList
  if 18 ≤ cs.length && dateSuffixOK (cs.drop (cs.length - 18)) then
    ⟨cs.take (cs.length - 18)⟩
  else s

/-- A `step_info` / `previous_step_info` object: a string-keyed,
string-valued JSON object. -/
abbrev ErrDict := List (String × String)

/-- One phase of a policy: the optional `min_age` string and the
`actions` object (action name to string-valued parameter map). -/
structure PhaseData where
  min_age : Option String
  actions : List (String × List (String × String))
deriving DecidableEq, Repr

/-- A policy's `phases` map, in JSON insertion order. -/
abbrev Phases := List (String × PhaseData)

/-- One entry of the policy catalog (`ilm_policies.json`): the nested
`policy.phases` map, the `in_use_by.indices` list and the optional
`modified_date`. -/
structure PolicyData where
  phases : Phases
  indices : List String
  modified_date : Option String
deriving DecidableEq, Repr

/-- One entry of the live-status catalog (`ilm_explain.json`,
`indices` section). Absent JSON fields are `none`; an entry that is
entirely absent from the catalog is modelled by absence from the
association list (the engine treats a present-but-empty object the same
way, via Python falsiness). -/
structure ExplainEntry where
  phase : Option String
  age : Option String
  action : Option String
  step : Option String
  policy : Option String
  step_info : Option ErrDict
  previous_step_info : Option ErrDict
  failed_step_retry_count : Option ℕ
deriving DecidableEq, Repr

/-- Python `d[key]` lookup on an association list (first binding wins,
as dict keys are unique). -/
def lookupDict {α : Type} : List (String × α) → String → Option α
  | [], _ => none
  | (k, v) :: rest, key => if k = key then some v else lookupDict rest key

/-- Python `d[key] = v`: replace the value at an existing key in place
(dict keys are unique), else append a new binding. -/
def dictInsert {α : Type} : List (String × α) → String → α → List (String × α)
  | [], k, v => [(k, v)]
  | (k0, v0) :: rest, k, v =>
      if k0 = k then (k, v) :: rest else (k0, v0) :: dictInsert rest k v

/-- JSON string literal (the engine's keys and values need no escaping). -/
def jsonStr (s : String) : String :=
  "\"" ++ s ++ "\""

/-- `json.dumps` of a string-valued parameter object with
`separators=(",", ":")`. -/
def encodeParams (ps : List (String × String)) : String :=
  "\x7b" ++ String.intercalate ","
    (ps.map (fun kv => jsonStr kv.1 ++ ":" ++ jsonStr kv.2)) ++ "\x7d"

/-- `json.dumps` of an `actions` object. -/
def encodeActions (acts : List (String × List (String × String))) : String :=
  "\x7b" ++ String.intercalate ","
    (acts.map (fun kv => jsonStr kv.1 ++ ":" ++ encodeParams kv.2)) ++ "\x7d"

/-- `json.dumps(phase_config, separators=(",", ":"))` for the
`min_age`/`actions` object built in `_extract_retention_info`. -/
def encodePhaseConfig (pd : PhaseData) : String :=
  "\x7b\"min_age\":" ++ jsonStr (pd.min_age.getD "0ms") ++
    ",\"actions\":" ++ encodeActions pd.actions ++ "\x7d"

/-- The fixed traversal order of `_extract_retention_info`. -/
def phaseOrder : List String :=
  ["hot", "warm", "cold", "frozen", "delete"]

/-- The lifecycle-signature fragment contributed by one phase name:
its encoded configuration if the phase is present, a null marker
otherwise. -/
def partFor (phases : Phases) (ph : String) : String :=
  match lookupDict phases ph with
  | some pd => ph ++ "=" ++ encodePhaseConfig pd
  | none => ph ++ "=null"

/-- `_extract_retention_info`: fold over the fixed phase order,
recording the delete phase's parsed trigger age as the retention and
one signature fragment per phase. -/
def extractRetentionInfo (phases : Phases) : ℚ × List String :=
  phaseOrder.foldl
    (fun acc ph =>
      match lookupDict phases ph with
      | some pd =>
          let minAge := parseAgeToDays (pd.min_age.getD "0")
          ((if ph = "delete" then minAge else acc.1),
            acc.2 ++ [ph ++ "=" ++ encodePhaseConfig pd])
      | none => (acc.1, acc.2 ++ [ph ++ "=null"]))
    (0, [])

/-- One row of the policy summary. -/
structure PolicySummary where
  retention_days : ℚ
  lifecycle_config : String
  total_indices : ℕ
  phases : List String
  modified_date : String
deriving DecidableEq, Repr

/-- The summary row built for one policy in `summarize_ilm_policies`. -/
def mkPolicySummary (data : PolicyData) : PolicySummary :=
  let ri := extractRetentionInfo data.phases
  { retention_days := ri.1
    lifecycle_config := String.intercalate " " ri.2
    total_indices :=
      (data.indices.filter (fun idx => !shouldSkip idx defaultSkipIndices)).length
    phases := data.phases.map Prod.fst
    modified_date :=
      if data.modified_date.getD "" = "" then "N/A"
      else strTake (data.modified_date.getD "") 10 }

/-- Lexicographic code-point comparison, the order of Python `sorted`
on strings. -/
def listLe : List Char → List Char → Bool
  | [], _ => true
  | _ :: _, [] => false
  | a :: as, b :: bs =>
      if a.toNat < b.toNat then true
      else if b.toNat < a.toNat then false
      else listLe as bs

/-- Python `a <= b` on strings. -/
def strLe (a b : String) : Bool :=
  listLe a.toList b.toList

/-- Insertion step of a stable sort by policy name. -/
def insertSorted {α : Type} (x : String × α) :
    List (String × α) → List (String × α)
  | [] => [x]
  | y :: ys => if strLe x.1 y.1 then x :: y :: ys else y :: insertSorted x ys

/-- Python `sorted(d.items())` for a string-keyed dict. -/
def sortByName {α : Type} (l : List (String × α)) : List (String × α) :=
  l.foldr insertSorted []

/-- Iteration of `summarize_ilm_policies` over the (sorted) policy
items: skipped policies contribute no row. -/
def summarizeGo : List (String × PolicyData) → List (String × PolicySummary)
  | [] => []
  | (name, data) :: rest =>
      if shouldSkip name defaultSkipPolicies then summarizeGo rest
      else (name, mkPolicySummary data) :: summarizeGo rest

/-- `summarize_ilm_policies` of `ilm_policy_parser.py`. -/
def summarizeIlmPolicies (policies : List (String × PolicyData)) :
    List (String × PolicySummary) :=
  summarizeGo (sortByName policies)

/-- `details.get('step_info', {}) or details.get('previous_step_info', {})`:
Python `or` keeps the left operand when it is truthy (a non-empty
dict), else yields the right one. -/
def errorInfo (d : ExplainEntry) : ErrDict :=
  let si := d.step_info.getD []
  if si.isEmpty then d.previous_step_info.getD [] else si

/-- `str(d)` for a string-valued Python dict, as interpolated into the
`'error' in str(...)` check. -/
def pyDictRepr (l : ErrDict) : String :=
  "\x7b" ++ String.intercalate ", "
    (l.map (fun kv => "\x27" ++ kv.1 ++ "\x27: \x27" ++ kv.2 ++ "\x27")) ++
    "\x7d"

/-- The filter building the `explain_all` error source:
`v.get('step') == 'ERROR' or 'error' in str(v.get('step_info', {})).lower()`. -/
def isErrorEntry (d : ExplainEntry) : Bool :=
  d.step == some "ERROR" ||
    strContains (lowerAscii (pyDictRepr (d.step_info.getD []))) "error"

/-- The error-classification rules of `report_ilm_errors`, in source
order with the first match winning; reason matching is against the
lower-cased reason. -/
def categorizeError (ty re : String) : String :=
  if strContains ty "security_exception" then " Permission Error"
  else if strContains (lowerAscii re) "snapshot" then " Snapshot Error"
  else if strContains (lowerAscii re) "shard" then "🔧 Shard Error"
  else if strContains (lowerAscii re) "disk" || strContains (lowerAscii re) "space" then
    " Storage Error"
  else " Other Error"

/-- One record of `all_errors` in `report_ilm_errors`. -/
structure ErrRecord where
  index : String
  policy : String
  phase : String
  age_days : ℚ
  error_type : String
  error_reason : String
  retry_count : ℕ
  step : String
deriving DecidableEq, Repr

/-- The record stored under `all_errors[index]`. -/
def mkErrRecord (idx : String) (d : ExplainEntry) : ErrRecord :=
  let ei := errorInfo d
  let reason := (lookupDict ei "reason").getD "No reason provided"
  { index := stripTrailingDate idx
    policy := d.policy.getD "unknown"
    phase := d.phase.getD "unknown"
    age_days := parseAgeToDays (d.age.getD "0d")
    error_type := (lookupDict ei "type").getD "unknown_error"
    error_reason :=
      if 80 < strLen reason then strTake reason 80 ++ "..." else reason
    retry_count := d.failed_step_retry_count.getD 0
    step := d.step.getD "unknown" }

/-- Accumulation of `all_errors` over one error source: indices
matching the index skip patterns contribute nothing, every other index
is inserted (superseding an earlier record under the same key). -/
def errGo : List (String × ExplainEntry) → List (String × ErrRecord) →
    List (String × ErrRecord)
  | [], allErrs => allErrs
  | (idx, d) :: rest, allErrs =>
      if shouldSkip idx defaultSkipIndices then errGo rest allErrs
      else errGo rest (dictInsert allErrs idx (mkErrRecord idx d))

/-- `report_ilm_errors` of `ilm_policy_parser.py`, restricted to its
returned value `all_errors`: the `explain_errors` source is folded in
first, then the error-bearing subset of the explain catalog. Grouping
by category, ranking by retry count and the top-10 cut affect only the
printed tables, not `all_errors`. -/
def reportIlmErrors (errorData explainData : List (String × ExplainEntry)) :
    List (String × ErrRecord) :=
  errGo (explainData.filter (fun kv => isErrorEntry kv.2)) (errGo errorData [])

/-- One optimization recommendation: the policy it is scoped to, its
category key in the `recommendations` dict, and the (static part of
the) message text. -/
structure Recommendation where
  policy : String
  category : String
  text : String
deriving DecidableEq, Repr

/-- Message of the missing-warm-phase check. -/
def warmRecText : String :=
  "Consider adding warm phase between hot and cold for better performance transition"

/-- `_check_policy_optimizations`, missing-warm-phase check. -/
def missingWarmRecs (name : String) (phases : Phases) : List Recommendation :=
  if (lookupDict phases "hot").isSome && (lookupDict phases "cold").isSome &&
      (lookupDict phases "warm").isNone then
    [⟨name, "performance", warmRecText⟩]
  else []

/-- `_check_policy_optimizations`, long-hot-retention check: the warm
phase's trigger age is used as a proxy for the hot-phase duration. -/
def longHotRecs (name : String) (phases : Phases) : List Recommendation :=
  match lookupDict phases "hot", lookupDict phases "warm" with
  | some _, some warmPd =>
      if 30 < parseAgeToDays (warmPd.min_age.getD "0") then
        [⟨name, "cost",
          "Hot phase duration is very long - consider shorter hot retention for cost savings"⟩]
      else []
  | _, _ => []

/-- `_check_policy_optimizations`, missing-frozen-for-long-retention
check. -/
def missingFrozenRecs (name : String) (phases : Phases) : List Recommendation :=
  match lookupDict phases "delete" with
  | some deletePd =>
      if 365 < parseAgeToDays (deletePd.min_age.getD "0") &&
          (lookupDict phases "frozen").isNone then
        [⟨name, "cost",
          "Long retention without frozen phase - consider frozen storage for cost optimization"⟩]
      else []
  | none => []

/-- The `max_size` value of the rollover check: the parameter with
`gb` and `GB` stripped. -/
def rolloverMaxSize (params : List (String × String)) : String :=
  pyReplace (pyReplace ((lookupDict params "max_primary_shard_size").getD "") "gb" "")
    "GB" ""

/-- `_check_policy_optimizations`, rollover-shard-size check: the
stripped parameter is fed to `float(...)`, whose `ValueError` on a
malformed value escapes as an exception. -/
def checkRollover (name : String) (phases : Phases) :
    Except String (List Recommendation) :=
  match lookupDict phases "hot" with
  | none => .ok []
  | some hotPd =>
      match lookupDict hotPd.actions "rollover" with
      | none => .ok []
      | some params =>
          if rolloverMaxSize params = "" then .ok []
          else
            match pyFloatChars? (rolloverMaxSize params).toList with
            | none => .error "ValueError"
            | some v =>
                .ok (if 50 < v then
                  [⟨name, "performance",
                    "Large shard size may impact performance - consider smaller shards"⟩]
                else [])

/-- `_check_policy_optimizations`: the four policy-level checks in
source order; the rollover check may raise. -/
def checkPolicyOptimizations (name : String) (phases : Phases) :
    Except String (List Recommendation) :=
  match checkRollover name phases with
  | .error e => .error e
  | .ok r4 =>
      .ok (missingWarmRecs name phases ++ longHotRecs name phases ++
        missingFrozenRecs name phases ++ r4)

/-- `_check_index_health_patterns`: per-index maintenance and
reliability counters over the policy's surviving indices. -/
def checkIndexHealthPatterns (name : String) (indices : List String)
    (explainData : List (String × ExplainEntry)) : List Recommendation :=
  let infos := indices.filterMap (fun idx => lookupDict explainData idx)
  let hotOld := infos.filter
    (fun d => d.phase.getD "unknown" = "hot" &&
      decide (30 < parseAgeToDays (d.age.getD "0d")))
  let stuck := infos.filter
    (fun d =>
      let st := d.step.getD "unknown"
      st = "ERROR" || st = "wait-for-action" || strContains (lowerAscii st) "wait")
  (if hotOld.length ≠ 0 then
    [⟨name, "maintenance",
      "indices stuck in hot phase more than 30d - investigate rollover conditions"⟩]
   else []) ++
  (if stuck.length ≠ 0 then
    [⟨name, "reliability", "indices appear stuck - review phase transitions"⟩]
   else [])

/-- Iteration of `analyze_ilm_improvements` over the policy items:
skipped policies and policies with no surviving indices contribute
nothing; the first exception aborts the analysis. -/
def analyzeAux (explainData : List (String × ExplainEntry)) :
    List (String × PolicyData) → List Recommendation →
    Except String (List Recommendation)
  | [], acc => .ok acc
  | (name, data) :: rest, acc =>
      if shouldSkip name defaultSkipPolicies then analyzeAux explainData rest acc
      else
        let filtered := data.indices.filter (fun idx => !shouldSkip idx defaultSkipIndices)
        if filtered.isEmpty then analyzeAux explainData rest acc
        else
          match checkPolicyOptimizations name data.phases with
          | .error e => .error e
          | .ok r =>
              analyzeAux explainData rest
                (acc ++ r ++ checkIndexHealthPatterns name filtered explainData)

/-- `analyze_ilm_improvements` of `ilm_policy_parser.py`, as the flat
recommendation list in evaluation order (the per-category dict is a
grouping of this list by the `category` field). -/
def analyzeIlmImprovements (policies : List (String × PolicyData))
    (explainData : List (String × ExplainEntry)) :
    Except String (List Recommendation) :=
  analyzeAux explainData policies []

/-- `total_indices` of `_calculate_health_score`. -/
def totalIndices (summary : List (String × PolicySummary)) : ℕ :=
  (summary.map (fun p => p.2.total_indices)).sum

/-- The `health_score` value of `_calculate_health_score`. -/
def healthScoreVal (summary : List (String × PolicySummary))
    (errors : List (String × ErrRecord)) : ℚ :=
  if totalIndices summary = 0 then 0
  else max 0 (100 - ((errors.length : ℚ) / (totalIndices summary : ℚ) * 100))

/-- The rating band of `_calculate_health_score`: the if-chain over
`health_score >= 95 / 85 / 70`. -/
def healthRating (score : ℚ) : String :=
  if 95 ≤ score then "🟢 EXCELLENT"
  else if 85 ≤ score then "🟡 GOOD"
  else if 70 ≤ score then "🟠 FAIR"
  else "🔴 POOR"

/-- `_calculate_health_score` of `ilm_policy_parser.py`. -/
def calculateHealthScore (summary : List (String × PolicySummary))
    (errors : List (String × ErrRecord)) : ℚ × String :=
  (healthScoreVal summary errors, healthRating (healthScoreVal summary errors))

/-- The value assembled by `generate_comprehensive_report` (without
the timestamp field). -/
structure AnalysisReport where
  policy_summary : List (String × PolicySummary)
  errors : List (String × ErrRecord)
  recommendations : List Recommendation
  health_score : ℚ
  health_rating : String

/-- `generate_comprehensive_report`: summary, then errors, then
recommendations, then the health score; an exception anywhere aborts
the whole run. -/
def generateComprehensiveReport (policies : List (String × PolicyData))
    (errorData explainData : List (String × ExplainEntry)) :
    Except String AnalysisReport :=
  let s := summarizeIlmPolicies policies
  let e := reportIlmErrors errorData explainData
  match analyzeIlmImprovements policies explainData with
  | .error msg => .error msg
  | .ok recs =>
      let sc := calculateHealthScore s e
      .ok ⟨s, e, recs, sc.1, sc.2⟩

/-! Concrete sample inputs used by witnesses and counterexamples. -/

/-- A hot phase whose rollover carries the malformed (non-gb) shard
size `"50mb"`. -/
def cxRolloverPhases : Phases :=
  [("hot", { min_age := none,
             actions := [("rollover", [("max_primary_shard_size", "50mb")])] })]

/-- A policy using `cxRolloverPhases`, with one surviving index. -/
def cxRolloverPolicy : PolicyData :=
  { phases := cxRolloverPhases, indices := ["idx-1"], modified_date := none }

/-- A status entry in step `ERROR` whose owning policy is the skipped
policy `metrics`. -/
def cxErrEntry : ExplainEntry :=
  { phase := some "hot", age := some "5d", action := some "x",
    step := some "ERROR", policy := some "metrics",
    step_info := some [("type", "illegal_state_exception"), ("reason", "boom")],
    previous_step_info := none, failed_step_retry_count := some 3 }

/-- A phase map with hot and cold but no warm phase. -/
def exHotColdPhases : Phases :=
  [("hot", { min_age := none, actions := [] }),
   ("cold", { min_age := some "30d", actions := [] })]

/-- A policy using `exHotColdPhases`, with one surviving index. -/
def exHotColdPolicy : PolicyData :=
  { phases := exHotColdPhases, indices := ["idx-1"], modified_date := none }

/-- A policy using `exHotColdPhases` with an empty index list. -/
def exHotColdNoIndexPolicy : PolicyData :=
  { phases := exHotColdPhases, indices := [], modified_date := none }

/-- A one-policy summary totalling 20 surviving indices. -/
def exSummary20 : List (String × PolicySummary) :=
  [("p", { retention_days := 0, lifecycle_config := "", total_indices := 20,
           phases := [], modified_date := "N/A" })]

/-- A one-record error set. -/
def exErrors1 : List (String × ErrRecord) :=
  [("i", { index := "i", policy := "p", phase := "hot", age_days := 0,
           error_type := "t", error_reason := "r", retry_count := 0,
           step := "ERROR" })]

/-- A phase map with only hot and a delete phase at `min_age` 30d. -/
def exHotDeletePhases : Phases :=
  [("hot", { min_age := none, actions := [] }),
   ("delete", { min_age := some "30d", actions := [] })]

/-- A status entry carrying both a non-empty `step_info` and a
non-empty `previous_step_info`. -/
def exBothInfoEntry : ExplainEntry :=
  { phase := some "hot", age := some "5d", action := some "x",
    step := some "ERROR", policy := some "p",
    step_info := some [("type", "security_exception"), ("reason", "from step info")],
    previous_step_info := some [("type", "other_type"), ("reason", "from previous")],
    failed_step_retry_count := some 1 }

/-! Helper lemmas. -/

lemma getLast?_append_right {α : Type} {l1 l2 : List α} (h : l2 ≠ []) :
    (l1 ++ l2).getLast? = l2.getLast? := by
  rw [List.getLast?_append]
  rcases hl : l2.getLast? with _ | a
  · exact absurd (List.getLast?_isSome.mpr h) (by simp [hl])
  · rfl

lemma dropWhile_getLast? (p : Char → Bool) (cs : List Char)
    (h : ¬ (cs.dropWhile p).isEmpty) :
    (cs.dropWhile p).getLast? = cs.getLast? := by
  conv_rhs => rw [← List.takeWhile_append_dropWhile (p := p) (l := cs)]
  rw [getLast?_append_right]
  simpa [List.isEmpty_iff] using h

lemma dropWhile_head_false {p : Char → Bool} {l : List Char} {r0 : Char}
    {rs : List Char} (h : l.dropWhile p = r0 :: rs) : p r0 = false := by
  induction l with
  | nil => simp at h
  | cons a t ih =>
      rw [List.dropWhile_cons] at h
      by_cases ha : p a
      · rw [if_pos ha] at h; exact ih h
      · rw [if_neg ha] at h
        cases h
        simpa using ha

lemma mantissaQ_lastM (cs : List Char) (h : cs.getLast? = some 'm') :
    mantissaQ? cs = none := by
  unfold mantissaQ?
  by_cases hr : (cs.dropWhile Char.isDigit).isEmpty
  · exfalso
    have hcs : cs.takeWhile Char.isDigit = cs := by
      have hsplit := List.takeWhile_append_dropWhile (p := Char.isDigit) (l := cs)
      rw [List.isEmpty_iff] at hr
      rw [hr, List.append_nil] at hsplit
      exact hsplit
    have hm : 'm' ∈ cs := List.mem_of_getLast?_eq_some h
    have hd : Char.isDigit 'm' = true :=
      List.mem_takeWhile_imp (p := Char.isDigit) (l := cs) (x := 'm')
        (by rw [hcs]; exact hm)
    exact absurd hd (by decide)
  · have hlast : (cs.dropWhile Char.isDigit).getLast? = some 'm' := by
      rw [dropWhile_getLast? _ _ hr]; exact h
    rw [if_neg hr]
    by_cases hdot : (cs.dropWhile Char.isDigit).head? = some '.'
    · rw [if_pos hdot]
      rcases hrest : cs.dropWhile Char.isDigit with _ | ⟨c, t⟩
      · rw [hrest] at hr; simp at hr
      · rw [hrest] at hdot hlast
        simp at hdot
        subst hdot
        rcases t with _ | ⟨t0, ts⟩
        · simp at hlast
        · rw [List.getLast?_cons_cons] at hlast
          have hm : 'm' ∈ t0 :: ts := List.mem_of_getLast?_eq_some hlast
          have hall : ((t0 :: ts).all Char.isDigit) = false := by
            rw [List.all_eq_false]
            exact ⟨'m', hm, by decide⟩
          simp [hall]
    · rw [if_neg hdot]

lemma signSplit_snd_getLast (cs : List Char) (h : cs.getLast? = some 'm') :
    (signSplit cs).2.getLast? = some 'm' := by
  rcases cs with _ | ⟨c, t⟩
  · simp at h
  · rcases t with _ | ⟨t0, ts⟩
    · simp at h
      subst h
      simp [signSplit]
    · rw [List.getLast?_cons_cons] at h
      unfold signSplit
      by_cases hc1 : c = '-'
      · simp [hc1]; exact h
      · by_cases hc2 : c = '+'
        · simp [hc1, hc2]; exact h
        · simp [hc1, hc2]
          exact h

lemma exponentZ_lastM (cs : List Char) (h : cs.getLast? = some 'm') :
    exponentZ? cs = none := by
  unfold exponentZ?
  by_cases he : (signSplit cs).2.isEmpty
  · simp [he]
  · have hall : ((signSplit cs).2.all Char.isDigit) = false := by
      rw [List.all_eq_false]
      exact ⟨'m', List.mem_of_getLast?_eq_some (signSplit_snd_getLast cs h), by decide⟩
    simp [hall]

lemma pyFloatChars_lastM (cs : List Char) (h : cs.getLast? = some 'm') :
    pyFloatChars? cs = none := by
  have hbody := signSplit_snd_getLast cs h
  unfold pyFloatChars?
  by_cases hr : ((signSplit cs).2.dropWhile (fun c => !(c == 'e' || c == 'E'))).isEmpty
  · have hfst : (splitExpon (signSplit cs).2).1 = (signSplit cs).2 := by
      unfold splitExpon
      have hsplit := List.takeWhile_append_dropWhile
        (p := fun c => !(c == 'e' || c == 'E')) (l := (signSplit cs).2)
      rw [List.isEmpty_iff] at hr
      rw [hr, List.append_nil] at hsplit
      exact hsplit
    rw [hfst, mantissaQ_lastM _ hbody]
  · have hlast : ((signSplit cs).2.dropWhile
        (fun c => !(c == 'e' || c == 'E'))).getLast? = some 'm' := by
      rw [dropWhile_getLast? _ _ hr]; exact hbody
    rcases hrest : (signSplit cs).2.dropWhile (fun c => !(c == 'e' || c == 'E'))
      with _ | ⟨r0, rs⟩
    · rw [hrest] at hr; simp at hr
    · have hsnd : (splitExpon (signSplit cs).2).2 = some rs := by
        unfold splitExpon
        rw [hrest]
        rfl
      rw [hrest] at hlast
      rcases rs with _ | ⟨rs0, rss⟩
      · exfalso
        simp at hlast
        have hp : (fun c => !(c == 'e' || c == 'E')) r0 = false :=
          dropWhile_head_false hrest
        rw [hlast] at hp
        exact absurd hp (by decide)
      · have hexp : exponentZ? (rs0 :: rss) = none := by
          apply exponentZ_lastM
          rw [List.getLast?_cons_cons] at hlast
          exact hlast
        cases hm : mantissaQ? (splitExpon (signSplit cs).2).1
        · simp [hm]
        · simp [hm, hsnd, hexp]

lemma lookupDict_mem {α : Type} {l : List (String × α)} {k : String} {v : α}
    (h : lookupDict l k = some v) : (k, v) ∈ l := by
  induction l with
  | nil => simp [lookupDict] at h
  | cons kv rest ih =>
      rcases kv with ⟨k0, v0⟩
      rw [lookupDict] at h
      by_cases hk : k0 = k
      · rw [if_pos hk] at h
        cases h
        subst hk
        exact List.mem_cons_self _ _
      · rw [if_neg hk] at h
        exact List.mem_cons_of_mem _ (ih h)

lemma lookupDict_none_iff {α : Type} (l : List (String × α)) (k : String) :
    lookupDict l k = none ↔ k ∉ l.map Prod.fst := by
  induction l with
  | nil => simp [lookupDict]
  | cons kv rest ih =>
      rcases kv with ⟨k0, v0⟩
      rw [lookupDict]
      by_cases hk : k0 = k
      · simp [hk]
      · simp [hk, ih, Ne.symm hk]

lemma lookupDict_dictInsert_ne {α : Type} (l : List (String × α)) (k : String)
    (v : α) (key : String) (hne : key ≠ k) :
    lookupDict (dictInsert l k v) key = lookupDict l key := by
  induction l with
  | nil =>
      rw [dictInsert, lookupDict, lookupDict, lookupDict]
      rw [if_neg (fun hh : k = key => hne hh.symm)]
  | cons kv rest ih =>
      rcases kv with ⟨k0, v0⟩
      rw [dictInsert]
      by_cases hk : k0 = k
      · rw [if_pos hk, lookupDict, lookupDict]
        rw [if_neg (fun hh : k = key => hne hh.symm)]
        rw [if_neg (fun hh : k0 = key => hne ((hk ▸ hh : k = key)).symm)]
      · rw [if_neg hk, lookupDict, lookupDict]
        by_cases hkey : k0 = key
        · rw [if_pos hkey, if_pos hkey]
        · rw [if_neg hkey, if_neg hkey]
          exact ih

lemma dictInsert_map_fst_some {α : Type} (l : List (String × α)) (k : String)
    (v : α) (hs : (lookupDict l k).isSome = true) :
    (dictInsert l k v).map Prod.fst = l.map Prod.fst := by
  induction l with
  | nil => simp [lookupDict] at hs
  | cons kv rest ih =>
      rcases kv with ⟨k0, v0⟩
      rw [dictInsert]
      by_cases hk : k0 = k
      · rw [if_pos hk]
        simp [hk]
      · rw [if_neg hk]
        rw [lookupDict, if_neg hk] at hs
        simp [ih hs]

lemma dictInsert_map_fst_none {α : Type} (l : List (String × α)) (k : String)
    (v : α) (hs : lookupDict l k = none) :
    (dictInsert l k v).map Prod.fst = l.map Prod.fst ++ [k] := by
  induction l with
  | nil => simp [dictInsert]
  | cons kv rest ih =>
      rcases kv with ⟨k0, v0⟩
      rw [lookupDict] at hs
      by_cases hk : k0 = k
      · rw [if_pos hk] at hs
        cases hs
      · rw [if_neg hk] at hs
        rw [dictInsert, if_neg hk]
        simp [ih hs]

lemma dictInsert_nodup {α : Type} (l : List (String × α)) (k : String) (v : α)
    (h : (l.map Prod.fst).Nodup) : ((dictInsert l k v).map Prod.fst).Nodup := by
  cases hs : lookupDict l k with
  | some w =>
      rw [dictInsert_map_fst_some l k v (by rw [hs]; rfl)]
      exact h
  | none =>
      rw [dictInsert_map_fst_none l k v hs]
      have hk : k ∉ l.map Prod.fst := (lookupDict_none_iff l k).mp hs
      rw [List.nodup_append]
      exact ⟨h, List.nodup_singleton k, by
        intro a ha hb
        rw [List.mem_singleton] at hb
        exact hk (hb ▸ ha)⟩


lemma errGo_lookup_skip (l : List (String × ExplainEntry))
    (allErrs : List (String × ErrRecord)) (idx : String)
    (hskip : shouldSkip idx defaultSkipIndices = true)
    (h : lookupDict allErrs idx = none) :
    lookupDict (errGo l allErrs) idx = none := by
  induction l generalizing allErrs with
  | nil => exact h
  | cons kv rest ih =>
      rcases kv with ⟨k, d⟩
      rw [errGo]
      by_cases hk : shouldSkip k defaultSkipIndices = true
      · rw [if_pos hk]
        exact ih _ h
      · rw [if_neg hk]
        apply ih
        rw [lookupDict_dictInsert_ne]
        · exact h
        · intro he
          rw [he] at hskip
          exact hk hskip

lemma errGo_nodup (l : List (String × ExplainEntry))
    (allErrs : List (String × ErrRecord))
    (h : (allErrs.map Prod.fst).Nodup) :
    ((errGo l allErrs).map Prod.fst).Nodup := by
  induction l generalizing allErrs with
  | nil => exact h
  | cons kv rest ih =>
      rcases kv with ⟨k, d⟩
      rw [errGo]
      by_cases hk : shouldSkip k defaultSkipIndices = true
      · rw [if_pos hk]
        exact ih _ h
      · rw [if_neg hk]
        exact ih _ (dictInsert_nodup _ _ _ h)

lemma summarizeGo_skip_lookup (l : List (String × PolicyData)) (p : String)
    (hskip : shouldSkip p defaultSkipPolicies = true) :
    lookupDict (summarizeGo l) p = none := by
  induction l with
  | nil => rfl
  | cons kv rest ih =>
      rcases kv with ⟨name, data⟩
      rw [summarizeGo]
      by_cases hn : shouldSkip name defaultSkipPolicies = true
      · rw [if_pos hn]
        exact ih
      · rw [if_neg hn]
        rw [lookupDict]
        rw [if_neg (fun hh : name = p => hn (by rw [hh]; exact hskip))]
        exact ih


lemma missingWarmRecs_policy {name : String} {phases : Phases}
    {r : Recommendation} (h : r ∈ missingWarmRecs name phases) :
    r.policy = name := by
  unfold missingWarmRecs at h
  split at h
  · rw [List.mem_singleton] at h
    rw [h]
  · cases h

lemma longHotRecs_policy {name : String} {phases : Phases}
    {r : Recommendation} (h : r ∈ longHotRecs name phases) :
    r.policy = name := by
  unfold longHotRecs at h
  split at h
  · split at h
    · rw [List.mem_singleton] at h
      rw [h]
    · cases h
  · cases h

lemma missingFrozenRecs_policy {name : String} {phases : Phases}
    {r : Recommendation} (h : r ∈ missingFrozenRecs name phases) :
    r.policy = name := by
  unfold missingFrozenRecs at h
  split at h
  · split at h
    · rw [List.mem_singleton] at h
      rw [h]
    · cases h
  · cases h

lemma checkRollover_policy {name : String} {phases : Phases}
    {out : List Recommendation} (h : checkRollover name phases = .ok out)
    {r : Recommendation} (hr : r ∈ out) : r.policy = name := by
  unfold checkRollover at h
  split at h
  · cases h
    cases hr
  · split at h
    · cases h
      cases hr
    · split at h
      · cases h
        cases hr
      · split at h
        · cases h
        · cases h
          split at hr
          · rw [List.mem_singleton] at hr
            rw [hr]
          · cases hr

lemma checkPolicyOptimizations_policy {name : String} {phases : Phases}
    {out : List Recommendation}
    (h : checkPolicyOptimizations name phases = .ok out)
    {r : Recommendation} (hr : r ∈ out) : r.policy = name := by
  unfold checkPolicyOptimizations at h
  cases hr4 : checkRollover name phases with
  | error e => rw [hr4] at h; cases h
  | ok r4 =>
      rw [hr4] at h
      cases h
      rcases List.mem_append.mp hr with h1 | h1
      · rcases List.mem_append.mp h1 with h2 | h2
        · rcases List.mem_append.mp h2 with h3 | h3
          · exact missingWarmRecs_policy h3
          · exact longHotRecs_policy h3
        · exact missingFrozenRecs_policy h2
      · exact checkRollover_policy hr4 h1

lemma checkIndexHealthPatterns_policy {name : String} {indices : List String}
    {explainData : List (String × ExplainEntry)} {r : Recommendation}
    (h : r ∈ checkIndexHealthPatterns name indices explainData) :
    r.policy = name := by
  unfold checkIndexHealthPatterns at h
  rcases List.mem_append.mp h with h1 | h1
  · split at h1
    · rw [List.mem_singleton] at h1
      rw [h1]
    · cases h1
  · split at h1
    · rw [List.mem_singleton] at h1
      rw [h1]
    · cases h1

lemma analyzeAux_acc_mem {explainData : List (String × ExplainEntry)}
    {ps : List (String × PolicyData)} {acc recs : List Recommendation}
    (h : analyzeAux explainData ps acc = .ok recs) :
    ∀ x ∈ acc, x ∈ recs := by
  induction ps generalizing acc with
  | nil =>
      rw [analyzeAux] at h
      cases h
      intro x hx
      exact hx
  | cons kv rest ih =>
      rcases kv with ⟨name, data⟩
      rw [analyzeAux] at h
      by_cases h1 : shouldSkip name defaultSkipPolicies = true
      · rw [if_pos h1] at h
        exact ih h
      · rw [if_neg h1] at h
        by_cases h2 : (data.indices.filter
            (fun idx => !shouldSkip idx defaultSkipIndices)).isEmpty = true
        · rw [if_pos h2] at h
          exact ih h
        · rw [if_neg h2] at h
          cases hc : checkPolicyOptimizations name data.phases with
          | error e => rw [hc] at h; cases h
          | ok r =>
              rw [hc] at h
              intro x hx
              exact ih h x (List.mem_append_left _ (List.mem_append_left _ hx))

lemma analyzeAux_policy_ok {explainData : List (String × ExplainEntry)}
    {ps : List (String × PolicyData)} {acc recs : List Recommendation}
    {name : String} {data : PolicyData}
    (hmem : (name, data) ∈ ps)
    (hskip : shouldSkip name defaultSkipPolicies = false)
    (hfil : (data.indices.filter
      (fun idx => !shouldSkip idx defaultSkipIndices)).isEmpty = false)
    (h : analyzeAux explainData ps acc = .ok recs) :
    ∃ out, checkPolicyOptimizations name data.phases = .ok out ∧
      ∀ x ∈ out, x ∈ recs := by
  induction ps generalizing acc with
  | nil => cases hmem
  | cons kv rest ih =>
      rcases kv with ⟨n0, d0⟩
      rw [analyzeAux] at h
      rcases List.mem_cons.mp hmem with heq | htail
      · cases heq
        rw [if_neg (by rw [hskip]; exact Bool.false_ne_true)] at h
        rw [if_neg (by rw [hfil]; exact Bool.false_ne_true)] at h
        cases hc : checkPolicyOptimizations name data.phases with
        | error e => rw [hc] at h; cases h
        | ok r =>
            rw [hc] at h
            refine ⟨r, rfl, fun x hx => analyzeAux_acc_mem h x ?_⟩
            exact List.mem_append_left _ (List.mem_append_right _ hx)
      · by_cases h1 : shouldSkip n0 defaultSkipPolicies = true
        · rw [if_pos h1] at h
          exact ih htail h
        · rw [if_neg h1] at h
          by_cases h2 : (d0.indices.filter
              (fun idx => !shouldSkip idx defaultSkipIndices)).isEmpty = true
          · rw [if_pos h2] at h
            exact ih htail h
          · rw [if_neg h2] at h
            cases hc : checkPolicyOptimizations n0 d0.phases with
            | error e => rw [hc] at h; cases h
            | ok r =>
                rw [hc] at h
                exact ih htail h

lemma analyzeAux_rec_policy {explainData : List (String × ExplainEntry)}
    {ps : List (String × PolicyData)} {acc recs : List Recommendation}
    (h : analyzeAux explainData ps acc = .ok recs)
    (hacc : ∀ r ∈ acc, shouldSkip r.policy defaultSkipPolicies = false) :
    ∀ r ∈ recs, shouldSkip r.policy defaultSkipPolicies = false := by
  induction ps generalizing acc with
  | nil =>
      rw [analyzeAux] at h
      cases h
      exact hacc
  | cons kv rest ih =>
      rcases kv with ⟨n0, d0⟩
      rw [analyzeAux] at h
      by_cases h1 : shouldSkip n0 defaultSkipPolicies = true
      · rw [if_pos h1] at h
        exact ih h hacc
      · rw [if_neg h1] at h
        by_cases h2 : (d0.indices.filter
            (fun idx => !shouldSkip idx defaultSkipIndices)).isEmpty = true
        · rw [if_pos h2] at h
          exact ih h hacc
        · rw [if_neg h2] at h
          cases hc : checkPolicyOptimizations n0 d0.phases with
          | error e => rw [hc] at h; cases h
          | ok r =>
              rw [hc] at h
              refine ih h ?_
              intro x hx
              rcases List.mem_append.mp hx with hx1 | hx1
              · rcases List.mem_append.mp hx1 with hx2 | hx2
                · exact hacc x hx2
                · rw [checkPolicyOptimizations_policy hc hx2]
                  exact Bool.not_eq_true _ ▸ (Bool.eq_false_iff.mpr h1)
              · rw [checkIndexHealthPatterns_policy hx1]
                exact Bool.not_eq_true _ ▸ (Bool.eq_false_iff.mpr h1)


lemma extractRetentionInfo_eq (phases : Phases) :
    extractRetentionInfo phases =
      ((match lookupDict phases "delete" with
        | some pd => parseAgeToDays (pd.min_age.getD "0")
        | none => 0),
       [partFor phases "hot", partFor phases "warm", partFor phases "cold",
        partFor phases "frozen", partFor phases "delete"]) := by
  unfold extractRetentionInfo phaseOrder partFor
  rcases h1 : lookupDict phases "hot" with _ | pd1 <;>
    rcases h2 : lookupDict phases "warm" with _ | pd2 <;>
      rcases h3 : lookupDict phases "cold" with _ | pd3 <;>
        rcases h4 : lookupDict phases "frozen" with _ | pd4 <;>
          rcases h5 : lookupDict phases "delete" with _ | pd5 <;>
            simp [h1, h2, h3, h4, h5]

/-- C1 counterexample: the name `system-logs-policy` does contain
`logs-` (inside `logs-policy`), so both skip predicates keep it,
contrary to the claim that it is skipped. -/
theorem C1_counterexample :
    strContains (lowerAscii "system-logs-policy") "logs" = true ∧
    strContains (lowerAscii "system-logs-policy") "logs-" = true ∧
    shouldSkipPolicyExplain "system-logs-policy" = false ∧
    shouldSkip "system-logs-policy" defaultSkipPolicies = false := by
  refine ⟨by decide, by decide, by decide, by decide⟩

/-- C1 (amended): `should_skip_policy` skips every name containing
`logs` without `logs-`; a name containing `logs-` is treated exactly
like the fixed pattern list (so it is kept unless a pattern matches);
`app-logs-daily` is kept, and `system-logs-policy` is kept too because
it contains `logs-`. -/
theorem C1_skip_filter_logs_rule (name : String) :
    (strContains (lowerAscii name) "logs" = true →
      strContains (lowerAscii name) "logs-" = false →
      shouldSkipPolicyExplain name = true) ∧
    (strContains (lowerAscii name) "logs-" = true →
      shouldSkipPolicyExplain name = shouldSkip name defaultSkipPolicies) ∧
    shouldSkipPolicyExplain "app-logs-daily" = false ∧
    shouldSkipPolicyExplain "system-logs-policy" = false := by
  refine ⟨?_, ?_, by decide, by decide⟩
  · intro h1 h2
    unfold shouldSkipPolicyExplain
    rw [h1, h2]
    simp
  · intro h
    unfold shouldSkipPolicyExplain shouldSkip defaultSkipPolicies
    rw [h]
    simp

/-- C1 witness: `applogs` contains `logs` but not `logs-`, hence is
skipped; on `metrics-logs-daily` (which contains `logs-`) the filter
agrees with the plain pattern list. -/
theorem C1_witness :
    shouldSkipPolicyExplain "applogs" = true ∧
    shouldSkipPolicyExplain "metrics-logs-daily" =
      shouldSkip "metrics-logs-daily" defaultSkipPolicies :=
  ⟨(C1_skip_filter_logs_rule "applogs").1 (by decide) (by decide),
   (C1_skip_filter_logs_rule "metrics-logs-daily").2.1 (by decide)⟩

/-- C2: a rollover `max_primary_shard_size` of `"50mb"` survives the
`gb`/`GB` stripping, `float("50mb")` raises `ValueError`, and the
exception escapes the whole analysis; likewise
`parse_min_age_to_days("18.67d")` raises via `int("18.67")`. -/
theorem C2_full_analysis_raises :
    generateComprehensiveReport [("p", cxRolloverPolicy)] [] [] =
      Except.error "ValueError" ∧
    checkPolicyOptimizations "p" cxRolloverPhases = Except.error "ValueError" ∧
    parseMinAgeToDaysV2 "18.67d" = Except.error "ValueError" := by
  refine ⟨by rfl, by rfl, by rfl⟩

/-- C3: the health score is `0` when there are no surviving indices and
`max(0, 100 − errors/total × 100)` otherwise; the bands are closed on
the lower bound; the error count ranges over distinct index keys; and
`total = 20, errors = 1` scores exactly `95` rated excellent. -/
theorem C3_health_score_spec :
    (∀ summary errors, totalIndices summary = 0 →
      (calculateHealthScore summary errors).1 = 0) ∧
    (∀ summary (errors : List (String × ErrRecord)), totalIndices summary ≠ 0 →
      (calculateHealthScore summary errors).1 =
        max 0 (100 - ((errors.length : ℚ) / (totalIndices summary : ℚ) * 100))) ∧
    (∀ summary errors, 95 ≤ (calculateHealthScore summary errors).1 →
      (calculateHealthScore summary errors).2 = "🟢 EXCELLENT") ∧
    (∀ summary errors, 85 ≤ (calculateHealthScore summary errors).1 →
      (calculateHealthScore summary errors).1 < 95 →
      (calculateHealthScore summary errors).2 = "🟡 GOOD") ∧
    (∀ summary errors, 70 ≤ (calculateHealthScore summary errors).1 →
      (calculateHealthScore summary errors).1 < 85 →
      (calculateHealthScore summary errors).2 = "🟠 FAIR") ∧
    (∀ summary errors, (calculateHealthScore summary errors).1 < 70 →
      (calculateHealthScore summary errors).2 = "🔴 POOR") ∧
    (∀ errorData explainData,
      ((reportIlmErrors errorData explainData).map Prod.fst).Nodup) ∧
    calculateHealthScore exSummary20 exErrors1 = (95, "🟢 EXCELLENT") := by
  refine ⟨?_, ?_, ?_, ?_, ?_, ?_, ?_, by decide⟩
  · intro summary errors h
    unfold calculateHealthScore healthScoreVal
    rw [if_pos h]
  · intro summary errors h
    unfold calculateHealthScore healthScoreVal
    rw [if_neg h]
  · intro summary errors h
    unfold calculateHealthScore healthRating at h ⊢
    rw [if_pos h]
  · intro summary errors h1 h2
    unfold calculateHealthScore healthRating at h1 h2 ⊢
    rw [if_neg (not_le.mpr h2), if_pos h1]
  · intro summary errors h1 h2
    unfold calculateHealthScore healthRating at h1 h2 ⊢
    rw [if_neg (not_le.mpr (lt_of_lt_of_le h2 (by norm_num))),
      if_neg (not_le.mpr h2), if_pos h1]
  · intro summary errors h
    unfold calculateHealthScore healthRating at h ⊢
    rw [if_neg (not_le.mpr (lt_of_lt_of_le h (by norm_num))),
      if_neg (not_le.mpr (lt_of_lt_of_le h (by norm_num))),
      if_neg (not_le.mpr h)]
  · intro errorData explainData
    unfold reportIlmErrors
    exact errGo_nodup _ _ (errGo_nodup _ _ (by simp))

/-- C3 witness: an empty summary scores `0`; the `20`-index,
`1`-error summary rates excellent at the `95` boundary. -/
theorem C3_witness :
    (calculateHealthScore [] exErrors1).1 = 0 ∧
    (calculateHealthScore exSummary20 exErrors1).2 = "🟢 EXCELLENT" :=
  ⟨C3_health_score_spec.1 [] exErrors1 (by decide),
   C3_health_score_spec.2.2.1 exSummary20 exErrors1 (by decide)⟩

/-- C4: the error-classification rules are evaluated in source order
with the first match winning: a `security_exception` type yields the
permission category whatever the reason says, then snapshot, shard,
disk-or-space and the default category follow in order (reason
matching is against the lower-cased reason). -/
theorem C4_error_categorizer_order (ty re : String) :
    (strContains ty "security_exception" = true →
      categorizeError ty re = " Permission Error") ∧
    (strContains ty "security_exception" = false →
      strContains (lowerAscii re) "snapshot" = true →
      categorizeError ty re = " Snapshot Error") ∧
    (strContains ty "security_exception" = false →
      strContains (lowerAscii re) "snapshot" = false →
      strContains (lowerAscii re) "shard" = true →
      categorizeError ty re = "🔧 Shard Error") ∧
    (strContains ty "security_exception" = false →
      strContains (lowerAscii re) "snapshot" = false →
      strContains (lowerAscii re) "shard" = false →
      (strContains (lowerAscii re) "disk" = true ∨
        strContains (lowerAscii re) "space" = true) →
      categorizeError ty re = " Storage Error") ∧
    (strContains ty "security_exception" = false →
      strContains (lowerAscii re) "snapshot" = false →
      strContains (lowerAscii re) "shard" = false →
      strContains (lowerAscii re) "disk" = false →
      strContains (lowerAscii re) "space" = false →
      categorizeError ty re = " Other Error") := by
  refine ⟨fun h1 => ?_, fun h1 h2 => ?_, fun h1 h2 h3 => ?_,
    fun h1 h2 h3 h4 => ?_, fun h1 h2 h3 h4 h5 => ?_⟩
  · simp [categorizeError, h1]
  · simp [categorizeError, h1, h2]
  · simp [categorizeError, h1, h2, h3]
  · rcases h4 with h4 | h4 <;> simp [categorizeError, h1, h2, h3, h4]
  · simp [categorizeError, h1, h2, h3, h4, h5]

/-- C4 witness: an error whose type contains `security_exception` and
whose reason contains `disk` is classified as a permission error, not
a storage error. -/
theorem C4_witness :
    categorizeError "security_exception" "disk watermark exceeded" =
      " Permission Error" :=
  (C4_error_categorizer_order "security_exception" "disk watermark exceeded").1
    (by decide)


/-- C5 counterexample: `parse_age_to_days("-5d")` returns `-5`, a
negative value, contradicting the claimed non-negativity. -/
theorem C5_counterexample :
    parseAgeToDays "-5d" = -5 ∧ parseAgeToDays "-5d" < 0 := by
  refine ⟨by decide, by decide⟩

/-- C5 (amended): the duration parser never fails and returns the
claimed values — `18.67d` gives `18.67`, `2h` gives `2/24`, the empty
string and the literals give `0`, and any unparseable numeric body
gives `0` — but the result is only non-negative when the parsed
numeric body is non-negative (a leading minus sign is passed through). -/
theorem C5_duration_parser_spec :
    parseAgeToDays "18.67d" = 18.67 ∧
    parseAgeToDays "2h" = 2 / 24 ∧
    parseAgeToDays "" = 0 ∧
    parseAgeToDays "N/A" = 0 ∧
    parseAgeToDays "0ms" = 0 ∧
    parseAgeToDays "null" = 0 ∧
    (∀ s : String, pyFloatChars? s.toList.dropLast = none → parseAgeToDays s = 0) ∧
    (∀ s : String, ∀ q : ℚ, pyFloatChars? s.toList.dropLast = some q → 0 ≤ q →
      0 ≤ parseAgeToDays s) := by
  refine ⟨by decide, by decide, by decide, by decide, by decide, by decide, ?_, ?_⟩
  · intro s h
    unfold parseAgeToDays
    split_ifs <;>
      first
        | (rw [h]; simp)
        | rfl
  · intro s q h hq
    unfold parseAgeToDays
    split_ifs <;>
      first
        | (rw [h]
           simp only [Option.getD_some]
           exact mul_nonneg hq (by norm_num))
        | norm_num

/-- C5 witness: an unparseable body (`xd`) yields `0`, and a
non-negative body (`3h`) yields a non-negative duration. -/
theorem C5_witness :
    parseAgeToDays "xd" = 0 ∧ 0 ≤ parseAgeToDays "3h" :=
  ⟨C5_duration_parser_spec.2.2.2.2.2.2.1 "xd" (by decide),
   C5_duration_parser_spec.2.2.2.2.2.2.2 "3h" 3 (by decide) (by norm_num)⟩

/-- C6 counterexample: an error-bearing index whose owning policy is
the skipped policy `metrics` still enters `all_errors` (and hence the
error count): `report_ilm_errors` filters only by index-name patterns. -/
theorem C6_counterexample :
    (reportIlmErrors [] [("idx-1", cxErrEntry)]).length = 1 ∧
    (lookupDict (reportIlmErrors [] [("idx-1", cxErrEntry)]) "idx-1").map
      (fun r => r.policy) = some "metrics" ∧
    shouldSkip "metrics" defaultSkipPolicies = true := by
  refine ⟨by rfl, by rfl, by decide⟩

/-- C6 (amended): skipped policies contribute no summary row and no
recommendation, and skipped index names are excluded from the error
set; but the error set is filtered only by index-name patterns, not by
the owning policy. -/
theorem C6_skip_filter_aggregation
    (policies : List (String × PolicyData))
    (errorData explainData : List (String × ExplainEntry)) :
    (∀ p, shouldSkip p defaultSkipPolicies = true →
      lookupDict (summarizeIlmPolicies policies) p = none) ∧
    (∀ recs, analyzeIlmImprovements policies explainData = .ok recs →
      ∀ r ∈ recs, shouldSkip r.policy defaultSkipPolicies = false) ∧
    (∀ idx, shouldSkip idx defaultSkipIndices = true →
      lookupDict (reportIlmErrors errorData explainData) idx = none) := by
  refine ⟨?_, ?_, ?_⟩
  · intro p hp
    unfold summarizeIlmPolicies
    exact summarizeGo_skip_lookup _ p hp
  · intro recs h r hr
    exact analyzeAux_rec_policy h (by intro x hx; cases hx) r hr
  · intro idx hidx
    unfold reportIlmErrors
    exact errGo_lookup_skip _ _ idx hidx (errGo_lookup_skip _ _ idx hidx rfl)

/-- C6 witness: the skipped policy `metrics` has no summary row, and a
`partial-restored` index is excluded from the error set. -/
theorem C6_witness :
    lookupDict (summarizeIlmPolicies [("metrics", cxRolloverPolicy)]) "metrics" =
      none ∧
    lookupDict (reportIlmErrors [] [("partial-restored-1", cxErrEntry)])
      "partial-restored-1" = none :=
  ⟨(C6_skip_filter_aggregation [("metrics", cxRolloverPolicy)] [] []).1
      "metrics" (by decide),
   (C6_skip_filter_aggregation [] [] [("partial-restored-1", cxErrEntry)]).2.2
      "partial-restored-1" (by decide)⟩

/-- C7 counterexample: a non-skipped policy with hot and cold but no
warm phase and an empty index list produces no recommendation at all —
`analyze_ilm_improvements` skips policies with no surviving indices
before the phase checks run. -/
theorem C7_counterexample :
    analyzeIlmImprovements [("p", exHotColdNoIndexPolicy)] [] = Except.ok [] ∧
    (lookupDict exHotColdNoIndexPolicy.phases "hot").isSome = true ∧
    (lookupDict exHotColdNoIndexPolicy.phases "cold").isSome = true ∧
    lookupDict exHotColdNoIndexPolicy.phases "warm" = none ∧
    shouldSkip "p" defaultSkipPolicies = false := by
  refine ⟨by rfl, by rfl, by rfl, by rfl, by decide⟩

/-- C7 (amended): for every non-skipped policy with at least one
surviving index whose phases contain hot and cold but not warm, a
successful analysis contains a performance recommendation scoped to
that policy. -/
theorem C7_missing_warm_recommendation
    (policies : List (String × PolicyData))
    (explainData : List (String × ExplainEntry))
    (name : String) (data : PolicyData) (recs : List Recommendation)
    (hmem : (name, data) ∈ policies)
    (hskip : shouldSkip name defaultSkipPolicies = false)
    (hfil : (data.indices.filter
      (fun idx => !shouldSkip idx defaultSkipIndices)).isEmpty = false)
    (hhot : (lookupDict data.phases "hot").isSome = true)
    (hcold : (lookupDict data.phases "cold").isSome = true)
    (hwarm : lookupDict data.phases "warm" = none)
    (h : analyzeIlmImprovements policies explainData = .ok recs) :
    ∃ r ∈ recs, r.policy = name ∧ r.category = "performance" := by
  obtain ⟨out, hout, hsub⟩ := analyzeAux_policy_ok hmem hskip hfil h
  have hcond : ((lookupDict data.phases "hot").isSome &&
      (lookupDict data.phases "cold").isSome &&
      (lookupDict data.phases "warm").isNone) = true := by
    rw [hhot, hcold, hwarm]
    rfl
  have hmw : missingWarmRecs name data.phases =
      [⟨name, "performance", warmRecText⟩] := by
    unfold missingWarmRecs
    rw [hcond]
    rfl
  unfold checkPolicyOptimizations at hout
  cases hr4 : checkRollover name data.phases with
  | error e => rw [hr4] at hout; cases hout
  | ok r4 =>
      rw [hr4] at hout
      cases hout
      refine ⟨⟨name, "performance", warmRecText⟩, ?_, rfl, rfl⟩
      apply hsub
      apply List.mem_append_left
      apply List.mem_append_left
      apply List.mem_append_left
      rw [hmw]
      exact List.mem_singleton_self _

/-- C7 witness: the single-policy catalog with hot and cold, no warm
and one surviving index yields the performance recommendation. -/
theorem C7_witness :
    ∃ r ∈ [(⟨"p", "performance", warmRecText⟩ : Recommendation)],
      r.policy = "p" ∧ r.category = "performance" :=
  C7_missing_warm_recommendation [("p", exHotColdPolicy)] [] "p" exHotColdPolicy
    [⟨"p", "performance", warmRecText⟩]
    (List.mem_singleton_self _) (by decide) (by rfl) (by rfl) (by rfl) (by rfl)
    (by rfl)


/-- C8: `_extract_retention_info` traverses the fixed order hot, warm,
cold, frozen, delete; the retention is the parsed trigger age of the
delete phase when present and `0` otherwise; every absent phase leaves
a `<phase>=null` marker at its fixed position; and the hot+delete(30d)
policy has retention 30 with null markers for warm, cold and frozen. -/
theorem C8_phase_extractor_spec (phases : Phases) :
    (∀ pd, lookupDict phases "delete" = some pd →
      (extractRetentionInfo phases).1 = parseAgeToDays (pd.min_age.getD "0")) ∧
    (lookupDict phases "delete" = none → (extractRetentionInfo phases).1 = 0) ∧
    (extractRetentionInfo phases).2.length = 5 ∧
    (extractRetentionInfo phases).2[0]? = some (partFor phases "hot") ∧
    (extractRetentionInfo phases).2[1]? = some (partFor phases "warm") ∧
    (extractRetentionInfo phases).2[2]? = some (partFor phases "cold") ∧
    (extractRetentionInfo phases).2[3]? = some (partFor phases "frozen") ∧
    (extractRetentionInfo phases).2[4]? = some (partFor phases "delete") ∧
    (∀ ph, lookupDict phases ph = none → partFor phases ph = ph ++ "=null") ∧
    (extractRetentionInfo exHotDeletePhases).1 = 30 ∧
    (extractRetentionInfo exHotDeletePhases).2[1]? = some "warm=null" ∧
    (extractRetentionInfo exHotDeletePhases).2[2]? = some "cold=null" ∧
    (extractRetentionInfo exHotDeletePhases).2[3]? = some "frozen=null" := by
  rw [extractRetentionInfo_eq]
  refine ⟨?_, ?_, rfl, rfl, rfl, rfl, rfl, rfl, ?_, by decide, by rfl, by rfl,
    by rfl⟩
  · intro pd h
    rw [h]
  · intro h
    rw [h]
  · intro ph h
    unfold partFor
    rw [h]

/-- C8 witness: the retention of the hot+delete(30d) policy is the
parsed delete trigger age, and a phase map with no delete phase has
retention `0`. -/
theorem C8_witness :
    (extractRetentionInfo exHotDeletePhases).1 =
      parseAgeToDays ((PhaseData.mk (some "30d") []).min_age.getD "0") ∧
    (extractRetentionInfo exHotColdPhases).1 = 0 :=
  ⟨(C8_phase_extractor_spec exHotDeletePhases).1
      (PhaseData.mk (some "30d") []) (by rfl),
   (C8_phase_extractor_spec exHotColdPhases).2.1 (by rfl)⟩

/-- C9: when `step_info` is present and non-empty, the error type and
reason are taken from it; `previous_step_info` is consulted only when
`step_info` is absent or empty (Python falsy-`or`). -/
theorem C9_step_info_precedence (d : ExplainEntry) :
    (∀ si, d.step_info = some si → si ≠ [] → errorInfo d = si) ∧
    (d.step_info.getD [] = [] →
      errorInfo d = d.previous_step_info.getD []) ∧
    errorInfo exBothInfoEntry =
      [("type", "security_exception"), ("reason", "from step info")] := by
  refine ⟨?_, ?_, by rfl⟩
  · intro si h hne
    unfold errorInfo
    rw [h]
    simp only [Option.getD_some]
    rw [if_neg (by simpa [List.isEmpty_iff] using hne)]
  · intro h
    unfold errorInfo
    rw [h]
    rfl

/-- C9 witness: on an entry carrying both infos, the error data comes
from `step_info`, ignoring `previous_step_info`. -/
theorem C9_witness :
    errorInfo exBothInfoEntry =
      [("type", "security_exception"), ("reason", "from step info")] :=
  (C9_step_info_precedence exBothInfoEntry).1
    [("type", "security_exception"), ("reason", "from step info")]
    (by rfl) (by decide)

/-- C10: every age string ending in `ms` (including but not limited to
the literal `0ms`) is parsed to zero days, in both duration-parser
variants: only the one-character suffixes are recognized, and the body
before the final `s` then ends in `m`, which `float(...)` rejects. -/
theorem C10_ms_never_converted :
    (∀ s : String, (∃ t, s.toList = t ++ ['m', 's']) → parseAgeToDays s = 0) ∧
    (∀ s : String, (∃ t, s.toList = t ++ ['m', 's']) →
      parseAgeToDaysV2 s = .ok 0) := by
  have key : ∀ s : String, (∃ t, s.toList = t ++ ['m', 's']) →
      s.toList.getLast? = some 's' ∧
      pyFloatChars? s.toList.dropLast = none := by
    rintro s ⟨t, ht⟩
    have hlast : s.toList.getLast? = some 's' := by
      rw [ht, getLast?_append_right (by simp)]
      rfl
    have hdrop : s.toList.dropLast = t ++ ['m'] := by
      rw [ht, show t ++ ['m', 's'] = (t ++ ['m']) ++ ['s'] by simp]
      exact List.dropLast_concat
    have hm : s.toList.dropLast.getLast? = some 'm' := by
      rw [hdrop, getLast?_append_right (by simp)]
      rfl
    exact ⟨hlast, pyFloatChars_lastM _ hm⟩
  constructor
  · rintro s hms
    obtain ⟨hlast, hnone⟩ := key s hms
    have hd : strEndsWithChar s 'd' = false := by
      unfold strEndsWithChar
      rw [hlast]
      rfl
    have hh : strEndsWithChar s 'h' = false := by
      unfold strEndsWithChar
      rw [hlast]
      rfl
    have hm2 : strEndsWithChar s 'm' = false := by
      unfold strEndsWithChar
      rw [hlast]
      rfl
    have hs : strEndsWithChar s 's' = true := by
      unfold strEndsWithChar
      rw [hlast]
      rfl
    have hnone2 : pyFloatChars? s.data.dropLast = none := hnone
    unfold parseAgeToDays
    rw [hd, hh, hm2, hs]
    simp [hnone, hnone2]
  · rintro s hms
    obtain ⟨hlast, hnone⟩ := key s hms
    have hd : strEndsWithChar s 'd' = false := by
      unfold strEndsWithChar
      rw [hlast]
      rfl
    have hh : strEndsWithChar s 'h' = false := by
      unfold strEndsWithChar
      rw [hlast]
      rfl
    have hm2 : strEndsWithChar s 'm' = false := by
      unfold strEndsWithChar
      rw [hlast]
      rfl
    unfold parseAgeToDaysV2
    rw [hd, hh, hm2]
    simp

/-- C10 witness: `500ms` parses to zero days in both variants. -/
theorem C10_witness :
    parseAgeToDays "500ms" = 0 ∧ parseAgeToDaysV2 "500ms" = .ok 0 :=
  ⟨C10_ms_never_converted.1 "500ms" ⟨['5', '0', '0'], rfl⟩,
   C10_ms_never_converted.2 "500ms" ⟨['5', '0', '0'], rfl⟩⟩

end Ilm
